import Mathlib

/-!
Verification of the Silver-to-Gold ETL stage (pos-dlt, notebook 04).

The stage declares two derived tables over immutable input relations:

* `inventory_current_python` — joins the filtered inventory-change stream to the
  latest per-(store,item) snapshot, aggregates one row per (store_id, item_id),
  and derives `current_quantity`, `date_time`, `inventory_type`, `stock_status`;
* `best_supplier` — joins that output to the `suppliers` relation and picks the
  top-scoring supplier for rows in "low" stock status.

Relations are embedded as lists of rows; nullable columns as `Option`; the
engine's SQL aggregates (`SUM`, `MAX`, `GREATEST`, `COALESCE`) as the explicit
null-skipping functions below.  The per-row random draws used by the
`inventory_type` classification (`rand() > 0.9`, `rand() > 0.5`) are passed in
as an explicit pair of Boolean outcomes per output row (one output row per
group key, so the draws are keyed by (store_id, item_id)).
-/

/-- An inventory change event from the `inventory_change` relation. -/
structure InventoryChangeEvent where
  store_id : Nat
  item_id : Nat
  change_type_id : Nat
  date_time : Nat
  quantity : Int
deriving DecidableEq

/-- A row of the `store` reference dimension. -/
structure Store where
  store_id : Nat
  name : String
deriving DecidableEq

/-- A row of the `inventory_change_type` reference dimension. -/
structure InventoryChangeType where
  change_type_id : Nat
  change_type : String
deriving DecidableEq

/-- A row of the `latest_inventory_snapshot` relation. -/
structure LatestInventorySnapshot where
  store_id : Nat
  item_id : Nat
  quantity : Int
  date_time : Nat
deriving DecidableEq

/-- A row of the filtered change relation (output of the inventory-change filter). -/
structure ChangeRow where
  store_id : Nat
  item_id : Nat
  date_time : Nat
  quantity : Int
deriving DecidableEq

/-- A row of the `inventory_current_python` output table. -/
structure CurrentInventoryRow where
  store_id : Nat
  item_id : Nat
  snapshot_quantity : Option Int
  change_quantity : Int
  current_quantity : Option Int
  date_time : Option Nat
  inventory_type : String
  stock_status : String
deriving DecidableEq

/-- A row of the `suppliers` relation. -/
structure Supplier where
  item_id : Nat
  name : String
  supplier1 : Int
  supplier2 : Int
  supplier3 : Int
deriving DecidableEq

/-- A row of the `best_supplier` output table. -/
structure SupplierRecommendationRow where
  name : String
  inventory_type : String
  current_quantity : Option Int
  top_supplier : String
  date_time : Option Nat
deriving DecidableEq

/-- Inner join of change events with the `store` dimension on `store_id`. -/
def changeStoreJoin (changes : List InventoryChangeEvent) (stores : List Store) :
    List (InventoryChangeEvent × Store) :=
  changes.flatMap fun x => (stores.filter fun y => x.store_id == y.store_id).map fun y => (x, y)

/-- Inner join with the `inventory_change_type` dimension on `change_type_id`. -/
def changeTypeJoin (xs : List (InventoryChangeEvent × Store))
    (types : List InventoryChangeType) :
    List (InventoryChangeEvent × Store × InventoryChangeType) :=
  xs.flatMap fun xy =>
    (types.filter fun z => xy.1.change_type_id == z.change_type_id).map fun z =>
      (xy.1, xy.2, z)

/-- The filter `NOT(y.name='online' AND z.change_type='bopis')`. -/
def bopisKeep (y : Store) (z : InventoryChangeType) : Bool :=
  !(y.name == "online" && z.change_type == "bopis")

/-- The inventory-change filter: dimension joins, BOPIS exclusion, projection to
`{store_id, item_id, date_time, quantity}`. -/
def inventory_change_df (changes : List InventoryChangeEvent) (stores : List Store)
    (types : List InventoryChangeType) : List ChangeRow :=
  ((changeTypeJoin (changeStoreJoin changes stores) types).filter fun xyz =>
      bopisKeep xyz.2.1 xyz.2.2).map fun xyz =>
    { store_id := xyz.1.store_id, item_id := xyz.1.item_id,
      date_time := xyz.1.date_time, quantity := xyz.1.quantity }

/-- The left-outer-join condition
`a.store_id=b.store_id AND a.item_id=b.item_id AND a.date_time<=b.date_time`. -/
def matchesJoin (a : LatestInventorySnapshot) (b : ChangeRow) : Bool :=
  a.store_id == b.store_id && a.item_id == b.item_id &&
    decide (a.date_time ≤ b.date_time)

/-- The rows a single snapshot row contributes to the left outer join: one row
per matching change, or a single null-extended row when nothing matches. -/
def blockOf (chgs : List ChangeRow) (a : LatestInventorySnapshot) :
    List (LatestInventorySnapshot × Option ChangeRow) :=
  if chgs.filter (matchesJoin a) = [] then [(a, none)]
  else (chgs.filter (matchesJoin a)).map fun b => (a, some b)

/-- The left outer join of the snapshot relation with the filtered changes. -/
def joinedRows (snaps : List LatestInventorySnapshot) (chgs : List ChangeRow) :
    List (LatestInventorySnapshot × Option ChangeRow) :=
  snaps.flatMap (blockOf chgs)

/-- The grouping key `(a.store_id, a.item_id)` of a joined row. -/
def keyOf (r : LatestInventorySnapshot × Option ChangeRow) : Nat × Nat :=
  (r.1.store_id, r.1.item_id)

/-- The distinct grouping keys of the joined relation. -/
def groupKeys (rows : List (LatestInventorySnapshot × Option ChangeRow)) :
    List (Nat × Nat) :=
  (rows.map keyOf).dedup

/-- SQL `SUM`: null on the empty set, otherwise the sum. -/
def sqlSum : List Int → Option Int
  | [] => none
  | q :: qs => some ((q :: qs).foldl (· + ·) 0)

/-- SQL `MAX`: null on the empty set, otherwise the maximum. -/
def sqlMax : List Nat → Option Nat
  | [] => none
  | d :: ds =>
    some (match sqlMax ds with
          | none => d
          | some m => max d m)

/-- SQL `GREATEST`: skips nulls, null only when both arguments are null. -/
def sqlGreatest : Option Nat → Option Nat → Option Nat
  | none, none => none
  | some a, none => some a
  | none, some b => some b
  | some a, some b => some (max a b)

/-- The `inventory_type` classification from the two random draws
(`rand() > 0.9`, then `rand() > 0.5`). -/
def inventoryTypeOf (d : Bool × Bool) : String :=
  if d.1 then "low quantity item"
  else if d.2 then "medium quantity item"
  else "high quantity item"

/-- SQL `<` against a constant: a null operand makes the comparison falsy. -/
def oltInt (c : Option Int) (k : Int) : Bool :=
  match c with
  | none => false
  | some q => decide (q < k)

/-- SQL `<=` against a constant: a null operand makes the comparison falsy. -/
def oleInt (c : Option Int) (k : Int) : Bool :=
  match c with
  | none => false
  | some q => decide (q ≤ k)

/-- The nested `stock_status` conditional over (inventory_type, current_quantity). -/
def stockStatusOf (ity : String) (cq : Option Int) : String :=
  if ity == "low quantity item" then
    if oltInt cq 3 then "low"
    else if oleInt cq 5 then "medium quantity item"
    else "high"
  else if ity == "medium quantity item" then
    if oltInt cq 10 then "low"
    else if oltInt cq 20 then "medium"
    else "high"
  else
    if oltInt cq 50 then "low"
    else if oltInt cq 70 then "medium"
    else "high"

/-- One aggregated output row for group key `k` with joined rows `g` and draw
outcomes `d`: `first(a.quantity)`, `sum(b.quantity)` coalesced to 0,
`first(a.date_time)`, `max(b.date_time)`, then the derived columns. -/
def mkRow (k : Nat × Nat) (g : List (LatestInventorySnapshot × Option ChangeRow))
    (d : Bool × Bool) : CurrentInventoryRow :=
  let snapshot_quantity : Option Int := g.head?.map fun r => r.1.quantity
  let snapshot_datetime : Option Nat := g.head?.map fun r => r.1.date_time
  let change_sum : Option Int := sqlSum (g.filterMap fun r => r.2.map ChangeRow.quantity)
  let change_datetime : Option Nat := sqlMax (g.filterMap fun r => r.2.map ChangeRow.date_time)
  let change_quantity : Int := change_sum.getD 0
  let current_quantity : Option Int := snapshot_quantity.map (· + change_quantity)
  let ity : String := inventoryTypeOf d
  { store_id := k.1, item_id := k.2,
    snapshot_quantity := snapshot_quantity,
    change_quantity := change_quantity,
    current_quantity := current_quantity,
    date_time := sqlGreatest snapshot_datetime change_datetime,
    inventory_type := ity,
    stock_status := stockStatusOf ity current_quantity }

/-- Ascending order on a nullable integer column (nulls first). -/
def optIntLe : Option Int → Option Int → Bool
  | none, _ => true
  | some _, none => false
  | some a, some b => decide (a ≤ b)

/-- The final `orderBy('current_quantity', 'inventory_type')` comparator. -/
def rowLe (r s : CurrentInventoryRow) : Bool :=
  if r.current_quantity = s.current_quantity then
    r.inventory_type == s.inventory_type || decide (r.inventory_type < s.inventory_type)
  else optIntLe r.current_quantity s.current_quantity

/-- Insert a row into an already ordered list of rows. -/
def insertRow (r : CurrentInventoryRow) : List CurrentInventoryRow → List CurrentInventoryRow
  | [] => [r]
  | s :: rest => if rowLe r s then r :: s :: rest else s :: insertRow r rest

/-- The `orderBy` of the aggregator's output (a stable sort under `rowLe`). -/
def orderByRows : List CurrentInventoryRow → List CurrentInventoryRow
  | [] => []
  | r :: rest => insertRow r (orderByRows rest)

/-- The current-inventory aggregator: left outer join, group by
(store_id, item_id), aggregate, derive columns, order the result. -/
def inventory_current (snaps : List LatestInventorySnapshot) (chgs : List ChangeRow)
    (draws : Nat × Nat → Bool × Bool) : List CurrentInventoryRow :=
  orderByRows ((groupKeys (joinedRows snaps chgs)).map fun k =>
    mkRow k ((joinedRows snaps chgs).filter fun r => keyOf r == k) (draws k))

/-- The `inventory_current_python` table: the aggregator applied to the
filtered change stream. -/
def inventory_current_python (changes : List InventoryChangeEvent) (stores : List Store)
    (types : List InventoryChangeType) (snaps : List LatestInventorySnapshot)
    (draws : Nat × Nat → Bool × Bool) : List CurrentInventoryRow :=
  inventory_current snaps (inventory_change_df changes stores types) draws

/-- `top_supplier`: the name of the first supplier column (in order supplier1,
supplier2, supplier3) equal to the greatest of the three scores. -/
def topSupplierOf (b : Supplier) : String :=
  let g := max b.supplier1 (max b.supplier2 b.supplier3)
  if g == b.supplier1 then "supplier1"
  else if g == b.supplier2 then "supplier2"
  else "supplier3"

/-- The `best_supplier` table: inner join on item_id, filter to "low" stock
status, compute `top_supplier`, project the recommendation columns. -/
def best_supplier (inv : List CurrentInventoryRow) (sups : List Supplier) :
    List SupplierRecommendationRow :=
  ((inv.flatMap fun a =>
      (sups.filter fun b => a.item_id == b.item_id).map fun b => (a, b)).filter
        fun ab => ab.1.stock_status == "low").map fun ab =>
    { name := ab.2.name, inventory_type := ab.1.inventory_type,
      current_quantity := ab.1.current_quantity,
      top_supplier := topSupplierOf ab.2, date_time := ab.1.date_time }

/-- The single output row of the spec's end-to-end example
(T0 = 100, both draw outcomes false). -/
def exampleRow1 : CurrentInventoryRow :=
  { store_id := 1, item_id := 100, snapshot_quantity := some 10, change_quantity := -1,
    current_quantity := some 9, date_time := some 102,
    inventory_type := "high quantity item", stock_status := "low" }

/-! ### Permutation facts about the final ordering -/

/-- Inserting a row permutes to consing it. -/
theorem insertRow_perm (r : CurrentInventoryRow) (l : List CurrentInventoryRow) :
    (insertRow r l).Perm (r :: l) := by
  induction l with
  | nil => simp [insertRow]
  | cons s rest ih =>
    simp only [insertRow]
    split
    · exact List.Perm.refl _
    · exact (ih.cons s).trans (List.Perm.swap r s rest)

/-- The final `orderBy` only permutes the aggregated rows. -/
theorem orderByRows_perm (l : List CurrentInventoryRow) : (orderByRows l).Perm l := by
  induction l with
  | nil => simp [orderByRows]
  | cons r rest ih => exact (insertRow_perm r (orderByRows rest)).trans (ih.cons r)

/-! ### The left outer join -/

/-- A snapshot row always contributes at least one joined row. -/
theorem blockOf_ne_nil (chgs : List ChangeRow) (a : LatestInventorySnapshot) :
    blockOf chgs a ≠ [] := by
  unfold blockOf
  split
  · simp
  · rename_i h
    simpa using h

/-- Every joined row in a snapshot row's block carries that snapshot row. -/
theorem blockOf_fst {chgs : List ChangeRow} {a : LatestInventorySnapshot} :
    ∀ r ∈ blockOf chgs a, r.1 = a := by
  intro r hr
  unfold blockOf at hr
  split at hr
  · simp at hr
    rw [hr]
  · obtain ⟨b, _, hb⟩ := List.mem_map.mp hr
    rw [← hb]

/-- A non-null joined pair comes from a change row satisfying the join condition. -/
theorem mem_blockOf_some {chgs : List ChangeRow} {a a' : LatestInventorySnapshot}
    {b : ChangeRow} (h : (a', some b) ∈ blockOf chgs a) :
    a' = a ∧ b ∈ chgs ∧ matchesJoin a b = true := by
  unfold blockOf at h
  split at h
  · simp at h
  · obtain ⟨m, hm, hmeq⟩ := List.mem_map.mp h
    obtain ⟨hmc, hmj⟩ := List.mem_filter.mp hm
    obtain ⟨h1, h2⟩ := Prod.mk.injEq .. ▸ hmeq
    cases h2
    exact ⟨h1.symm, hmc, hmj⟩

/-- Membership in the left outer join. -/
theorem mem_joinedRows {snaps : List LatestInventorySnapshot} {chgs : List ChangeRow}
    {r : LatestInventorySnapshot × Option ChangeRow} :
    r ∈ joinedRows snaps chgs ↔ ∃ a ∈ snaps, r ∈ blockOf chgs a :=
  List.mem_flatMap

/-- Every snapshot row survives into the left outer join. -/
theorem exists_mem_joinedRows {snaps : List LatestInventorySnapshot}
    {chgs : List ChangeRow} {a : LatestInventorySnapshot} (ha : a ∈ snaps) :
    ∃ r ∈ joinedRows snaps chgs, r.1 = a := by
  obtain ⟨r, hr⟩ := List.exists_mem_of_ne_nil _ (blockOf_ne_nil chgs a)
  exact ⟨r, mem_joinedRows.mpr ⟨a, ha, hr⟩, blockOf_fst r hr⟩

/-! ### Grouping -/

/-- A pair is a group key iff some joined row carries it. -/
theorem mem_groupKeys {rows : List (LatestInventorySnapshot × Option ChangeRow)}
    {k : Nat × Nat} : k ∈ groupKeys rows ↔ ∃ r ∈ rows, keyOf r = k := by
  simp [groupKeys, List.mem_dedup, List.mem_map]

/-- The group keys are distinct. -/
theorem nodup_groupKeys (rows : List (LatestInventorySnapshot × Option ChangeRow)) :
    (groupKeys rows).Nodup :=
  List.nodup_dedup _

/-- Every snapshot row's key shows up as a group key of the join. -/
theorem key_mem_groupKeys {snaps : List LatestInventorySnapshot} {chgs : List ChangeRow}
    {a : LatestInventorySnapshot} (ha : a ∈ snaps) :
    (a.store_id, a.item_id) ∈ groupKeys (joinedRows snaps chgs) := by
  obtain ⟨r, hr, hfst⟩ := @exists_mem_joinedRows snaps chgs a ha
  exact mem_groupKeys.mpr ⟨r, hr, by rw [keyOf, hfst]⟩

/-- The rows of a realized group are never empty. -/
theorem groupFilter_ne_nil {rows : List (LatestInventorySnapshot × Option ChangeRow)}
    {k : Nat × Nat} (hk : k ∈ groupKeys rows) :
    rows.filter (fun x => keyOf x == k) ≠ [] := by
  obtain ⟨r, hr, hkey⟩ := mem_groupKeys.mp hk
  intro hnil
  have : r ∈ rows.filter (fun x => keyOf x == k) :=
    List.mem_filter.mpr ⟨hr, by simp [hkey]⟩
  simp [hnil] at this

/-- Membership in the aggregator's output: each output row is the aggregate of
one realized group key. -/
theorem mem_inventory_current {snaps : List LatestInventorySnapshot}
    {chgs : List ChangeRow} {draws : Nat × Nat → Bool × Bool} {r : CurrentInventoryRow} :
    r ∈ inventory_current snaps chgs draws ↔
      ∃ k ∈ groupKeys (joinedRows snaps chgs),
        r = mkRow k ((joinedRows snaps chgs).filter fun x => keyOf x == k) (draws k) := by
  unfold inventory_current
  rw [(orderByRows_perm _).mem_iff, List.mem_map]
  constructor
  · rintro ⟨k, hk, rfl⟩
    exact ⟨k, hk, rfl⟩
  · rintro ⟨k, hk, rfl⟩
    exact ⟨k, hk, rfl⟩

/-! ### Field computations of an aggregated row -/

theorem mkRow_store_id (k : Nat × Nat) (g : List (LatestInventorySnapshot × Option ChangeRow))
    (d : Bool × Bool) : (mkRow k g d).store_id = k.1 := rfl

theorem mkRow_item_id (k : Nat × Nat) (g : List (LatestInventorySnapshot × Option ChangeRow))
    (d : Bool × Bool) : (mkRow k g d).item_id = k.2 := rfl

theorem mkRow_inventory_type (k : Nat × Nat)
    (g : List (LatestInventorySnapshot × Option ChangeRow)) (d : Bool × Bool) :
    (mkRow k g d).inventory_type = inventoryTypeOf d := rfl

/-- `stock_status` is exactly the nested conditional applied to the row's own
`inventory_type` and `current_quantity` columns. -/
theorem mkRow_stock_status (k : Nat × Nat)
    (g : List (LatestInventorySnapshot × Option ChangeRow)) (d : Bool × Bool) :
    (mkRow k g d).stock_status =
      stockStatusOf (mkRow k g d).inventory_type (mkRow k g d).current_quantity := rfl

/-- `current_quantity` is the (nullable) `snapshot_quantity` plus the coalesced
`change_quantity`. -/
theorem mkRow_current_quantity (k : Nat × Nat)
    (g : List (LatestInventorySnapshot × Option ChangeRow)) (d : Bool × Bool) :
    (mkRow k g d).current_quantity =
      (mkRow k g d).snapshot_quantity.map (· + (mkRow k g d).change_quantity) := rfl

theorem mkRow_change_quantity (k : Nat × Nat)
    (g : List (LatestInventorySnapshot × Option ChangeRow)) (d : Bool × Bool) :
    (mkRow k g d).change_quantity =
      (sqlSum (g.filterMap fun r => r.2.map ChangeRow.quantity)).getD 0 := rfl

theorem mkRow_date_time (k : Nat × Nat)
    (g : List (LatestInventorySnapshot × Option ChangeRow)) (d : Bool × Bool) :
    (mkRow k g d).date_time =
      sqlGreatest (g.head?.map fun r => r.1.date_time)
        (sqlMax (g.filterMap fun r => r.2.map ChangeRow.date_time)) := rfl

theorem mkRow_cons_snapshot_quantity (k : Nat × Nat)
    (r0 : LatestInventorySnapshot × Option ChangeRow)
    (g : List (LatestInventorySnapshot × Option ChangeRow)) (d : Bool × Bool) :
    (mkRow k (r0 :: g) d).snapshot_quantity = some r0.1.quantity := rfl

theorem mkRow_cons_current_quantity (k : Nat × Nat)
    (r0 : LatestInventorySnapshot × Option ChangeRow)
    (g : List (LatestInventorySnapshot × Option ChangeRow)) (d : Bool × Bool) :
    (mkRow k (r0 :: g) d).current_quantity =
      some (r0.1.quantity + (mkRow k (r0 :: g) d).change_quantity) := rfl

/-! ### Evaluating a group that consists of a single snapshot row's block -/

theorem blockOf_head?_fst (chgs : List ChangeRow) (a : LatestInventorySnapshot) :
    (blockOf chgs a).head?.map (fun r => r.1) = some a := by
  unfold blockOf
  split
  · rfl
  · rename_i h
    cases hms : chgs.filter (matchesJoin a) with
    | nil => exact absurd hms h
    | cons m ms => simp [hms]

theorem blockOf_head?_quantity (chgs : List ChangeRow) (a : LatestInventorySnapshot) :
    (blockOf chgs a).head?.map (fun r => r.1.quantity) = some a.quantity := by
  have h := blockOf_head?_fst chgs a
  cases hh : (blockOf chgs a).head? with
  | none => rw [hh] at h; simp at h
  | some r0 =>
    rw [hh] at h
    simp only [Option.map_some'] at h ⊢
    rw [Option.some.injEq] at h
    rw [h]

theorem blockOf_head?_date_time (chgs : List ChangeRow) (a : LatestInventorySnapshot) :
    (blockOf chgs a).head?.map (fun r => r.1.date_time) = some a.date_time := by
  have h := blockOf_head?_fst chgs a
  cases hh : (blockOf chgs a).head? with
  | none => rw [hh] at h; simp at h
  | some r0 =>
    rw [hh] at h
    simp only [Option.map_some'] at h ⊢
    rw [Option.some.injEq] at h
    rw [h]

/-- Projecting the change side of a block recovers exactly the matching changes. -/
theorem blockOf_filterMap {β : Type} (chgs : List ChangeRow) (a : LatestInventorySnapshot)
    (f : ChangeRow → β) :
    (blockOf chgs a).filterMap (fun r => r.2.map f) = (chgs.filter (matchesJoin a)).map f := by
  unfold blockOf
  split
  · rename_i h
    rw [h]
    rfl
  · rw [List.filterMap_map]
    have : ((fun r : LatestInventorySnapshot × Option ChangeRow => r.2.map f) ∘
        fun b => (a, some b)) = fun b => some (f b) := rfl
    rw [this]
    exact List.filterMap_eq_map f ▸ rfl

/-! ### Groups under a duplicate-free snapshot key -/

/-- When the snapshot relation has at most one row per (store_id, item_id), the
group of a snapshot row's key consists exactly of that row's block. -/
theorem filter_joinedRows_eq_blockOf {snaps : List LatestInventorySnapshot}
    {chgs : List ChangeRow}
    (hkeys : (snaps.map fun a => (a.store_id, a.item_id)).Nodup)
    {a : LatestInventorySnapshot} (ha : a ∈ snaps) :
    (joinedRows snaps chgs).filter (fun x => keyOf x == (a.store_id, a.item_id)) =
      blockOf chgs a := by
  induction snaps with
  | nil => cases ha
  | cons c rest ih =>
    rw [List.map_cons, List.nodup_cons] at hkeys
    obtain ⟨hc, hrest⟩ := hkeys
    have hsplit : joinedRows (c :: rest) chgs = blockOf chgs c ++ joinedRows rest chgs :=
      List.flatMap_cons ..
    rw [hsplit, List.filter_append]
    rcases List.mem_cons.mp ha with rfl | ha'
    · have hfull : (blockOf chgs a).filter (fun x => keyOf x == (a.store_id, a.item_id)) =
          blockOf chgs a := by
        apply List.filter_eq_self.mpr
        intro x hx
        have := blockOf_fst x hx
        simp [keyOf, this]
      have hnil : (joinedRows rest chgs).filter
          (fun x => keyOf x == (a.store_id, a.item_id)) = [] := by
        apply List.filter_eq_nil_iff.mpr
        intro x hx
        obtain ⟨a', ha'', hx'⟩ := mem_joinedRows.mp hx
        have hfst := blockOf_fst x hx'
        simp only [keyOf, hfst, beq_iff_eq, Prod.mk.injEq]
        intro hcontr
        exact hc (List.mem_map.mpr ⟨a', ha'', by rw [hcontr.1, hcontr.2]⟩)
      rw [hfull, hnil, List.append_nil]
    · have hkne : (a.store_id, a.item_id) ≠ (c.store_id, c.item_id) := by
        intro hcontr
        exact hc (List.mem_map.mpr ⟨a, ha', hcontr⟩)
      have hnil : (blockOf chgs c).filter
          (fun x => keyOf x == (a.store_id, a.item_id)) = [] := by
        apply List.filter_eq_nil_iff.mpr
        intro x hx
        have hfst := blockOf_fst x hx
        simp only [keyOf, hfst, beq_iff_eq]
        exact fun hcontr => hkne hcontr.symm
      rw [hnil, List.nil_append]
      exact ih hrest ha'

/-- Under a duplicate-free snapshot key, the output row carrying a snapshot
row's key is the aggregate of that row's block. -/
theorem output_row_eq {snaps : List LatestInventorySnapshot} {chgs : List ChangeRow}
    {draws : Nat × Nat → Bool × Bool} {r : CurrentInventoryRow}
    (hkeys : (snaps.map fun a => (a.store_id, a.item_id)).Nodup)
    (hr : r ∈ inventory_current snaps chgs draws)
    {a : LatestInventorySnapshot} (ha : a ∈ snaps)
    (h1 : a.store_id = r.store_id) (h2 : a.item_id = r.item_id) :
    r = mkRow (a.store_id, a.item_id) (blockOf chgs a) (draws (a.store_id, a.item_id)) := by
  obtain ⟨k, hk, hre⟩ := mem_inventory_current.mp hr
  have e1 : r.store_id = k.1 := by rw [hre]; rfl
  have e2 : r.item_id = k.2 := by rw [hre]; rfl
  have hks : k = (a.store_id, a.item_id) :=
    Prod.ext (e1.symm.trans h1.symm) (e2.symm.trans h2.symm)
  rw [hre, hks, filter_joinedRows_eq_blockOf hkeys ha]

/-! ### Facts about the SQL helpers -/

theorem sqlGreatest_some_none (t : Nat) : sqlGreatest (some t) none = some t := rfl

theorem sqlGreatest_some_ge (t : Nat) (x : Option Nat) :
    ∃ d, sqlGreatest (some t) x = some d ∧ t ≤ d := by
  cases x with
  | none => exact ⟨t, rfl, Nat.le_refl t⟩
  | some m => exact ⟨max t m, rfl, Nat.le_max_left t m⟩

/-- `stock_status` only ever takes one of the four literal labels. -/
theorem stockStatusOf_cases (ity : String) (cq : Option Int) :
    stockStatusOf ity cq = "low" ∨ stockStatusOf ity cq = "medium quantity item" ∨
      stockStatusOf ity cq = "medium" ∨ stockStatusOf ity cq = "high" := by
  unfold stockStatusOf
  split_ifs <;> simp

/-- Any `inventory_type` other than the low and medium labels takes the
high-tier thresholds. -/
theorem stockStatusOf_other (ity : String) (cq : Option Int)
    (h1 : ity ≠ "low quantity item") (h2 : ity ≠ "medium quantity item") :
    stockStatusOf ity cq = stockStatusOf "high quantity item" cq := by
  have b1 : (ity == "low quantity item") = false := by simp [h1]
  have b2 : (ity == "medium quantity item") = false := by simp [h2]
  simp [stockStatusOf, b1, b2]

/-! ### The inventory-change filter -/

theorem changeStoreJoin_cons (x : InventoryChangeEvent) (changes : List InventoryChangeEvent)
    (stores : List Store) :
    changeStoreJoin (x :: changes) stores =
      ((stores.filter fun y => x.store_id == y.store_id).map fun y => (x, y)) ++
        changeStoreJoin changes stores :=
  List.flatMap_cons ..

theorem changeTypeJoin_append (l1 l2 : List (InventoryChangeEvent × Store))
    (types : List InventoryChangeType) :
    changeTypeJoin (l1 ++ l2) types = changeTypeJoin l1 types ++ changeTypeJoin l2 types :=
  List.flatMap_append ..

/-- A change event all of whose matching stores are named "online" and all of
whose matching change types are "bopis" is dropped whole by the filter. -/
theorem inventory_change_df_cons_excluded {changes : List InventoryChangeEvent}
    {stores : List Store} {types : List InventoryChangeType} {x : InventoryChangeEvent}
    (hy : ∀ y ∈ stores, y.store_id = x.store_id → y.name = "online")
    (hz : ∀ z ∈ types, z.change_type_id = x.change_type_id → z.change_type = "bopis") :
    inventory_change_df (x :: changes) stores types =
      inventory_change_df changes stores types := by
  unfold inventory_change_df
  rw [changeStoreJoin_cons, changeTypeJoin_append, List.filter_append, List.map_append]
  have hnil : (changeTypeJoin ((stores.filter fun y => x.store_id == y.store_id).map
      fun y => (x, y)) types).filter (fun xyz => bopisKeep xyz.2.1 xyz.2.2) = [] := by
    apply List.filter_eq_nil_iff.mpr
    intro xyz hmem
    unfold changeTypeJoin at hmem
    obtain ⟨xy, hxy, hmem2⟩ := List.mem_flatMap.mp hmem
    obtain ⟨z, hzmem, hzeq⟩ := List.mem_map.mp hmem2
    obtain ⟨y, hymem, hyeq⟩ := List.mem_map.mp hxy
    obtain ⟨hyst, hyfil⟩ := List.mem_filter.mp hymem
    obtain ⟨hzst, hzfil⟩ := List.mem_filter.mp hzmem
    subst hyeq
    subst hzeq
    have hyname : y.name = "online" := hy y hyst (Eq.symm (by simpa using hyfil))
    have hzname : z.change_type = "bopis" := hz z hzst (Eq.symm (by simpa using hzfil))
    simp [bopisKeep, hyname, hzname]
  rw [hnil, List.map_nil, List.nil_append]

/-- A change event with a matching store row and a matching change-type row that
does not hit the BOPIS exclusion passes the filter. -/
theorem mem_inventory_change_df {changes : List InventoryChangeEvent} {stores : List Store}
    {types : List InventoryChangeType} {x : InventoryChangeEvent} {y : Store}
    {z : InventoryChangeType}
    (hx : x ∈ changes) (hyy : y ∈ stores) (hzz : z ∈ types)
    (hy : y.store_id = x.store_id) (hz : z.change_type_id = x.change_type_id)
    (hkeep : ¬(y.name = "online" ∧ z.change_type = "bopis")) :
    ({ store_id := x.store_id, item_id := x.item_id, date_time := x.date_time,
       quantity := x.quantity } : ChangeRow) ∈ inventory_change_df changes stores types := by
  unfold inventory_change_df
  apply List.mem_map.mpr
  refine ⟨(x, y, z), ?_, rfl⟩
  apply List.mem_filter.mpr
  constructor
  · unfold changeTypeJoin
    apply List.mem_flatMap.mpr
    refine ⟨(x, y), ?_, ?_⟩
    · unfold changeStoreJoin
      apply List.mem_flatMap.mpr
      exact ⟨x, hx, List.mem_map.mpr ⟨y, List.mem_filter.mpr ⟨hyy, by simp [hy]⟩, rfl⟩⟩
    · exact List.mem_map.mpr ⟨z, List.mem_filter.mpr ⟨hzz, by simp [hz]⟩, rfl⟩
  · have hfalse : (y.name == "online" && z.change_type == "bopis") = false := by
      by_cases h1 : y.name = "online"
      · by_cases h2 : z.change_type = "bopis"
        · exact absurd ⟨h1, h2⟩ hkeep
        · simp [h2]
      · simp [h1]
    simp [bopisKeep, hfalse]

/-! ### Changes that fail the outer-join condition -/

theorem blockOf_cons_of_not_match {chgs : List ChangeRow} {a : LatestInventorySnapshot}
    {b : ChangeRow} (h : matchesJoin a b = false) :
    blockOf (b :: chgs) a = blockOf chgs a := by
  simp [blockOf, List.filter_cons, h]

theorem joinedRows_cons_block (c : LatestInventorySnapshot)
    (rest : List LatestInventorySnapshot) (chgs : List ChangeRow) :
    joinedRows (c :: rest) chgs = blockOf chgs c ++ joinedRows rest chgs :=
  List.flatMap_cons ..

/-- A change row matching no snapshot row leaves the whole outer join unchanged. -/
theorem joinedRows_cons_of_no_match {snaps : List LatestInventorySnapshot}
    {chgs : List ChangeRow} {b : ChangeRow}
    (h : ∀ a ∈ snaps, matchesJoin a b = false) :
    joinedRows snaps (b :: chgs) = joinedRows snaps chgs := by
  induction snaps with
  | nil => rfl
  | cons c rest ih =>
    rw [joinedRows_cons_block, joinedRows_cons_block,
      blockOf_cons_of_not_match (h c (List.mem_cons_self ..)),
      ih fun a ha => h a (List.mem_cons_of_mem c ha)]

/-- A change strictly earlier than every matching snapshot fails the join
condition. -/
theorem matchesJoin_eq_false {a : LatestInventorySnapshot} {b : ChangeRow}
    (h : a.store_id = b.store_id → a.item_id = b.item_id → b.date_time < a.date_time) :
    matchesJoin a b = false := by
  unfold matchesJoin
  by_cases h1 : a.store_id = b.store_id
  · by_cases h2 : a.item_id = b.item_id
    · have hlt := h h1 h2
      simp [h1, h2]
      omega
    · simp [h2]
  · simp [h1]

/-- Every output row's `stock_status` is the nested conditional applied to its
own `inventory_type` and `current_quantity`. -/
theorem stock_status_of_mem {snaps : List LatestInventorySnapshot} {chgs : List ChangeRow}
    {draws : Nat × Nat → Bool × Bool} {r : CurrentInventoryRow}
    (hr : r ∈ inventory_current snaps chgs draws) :
    r.stock_status = stockStatusOf r.inventory_type r.current_quantity := by
  obtain ⟨k, hk, hre⟩ := mem_inventory_current.mp hr
  rw [hre]
  rfl

/-- A predicate holding exactly at one member of a duplicate-free list counts
once. -/
theorem countP_eq_one_of_nodup {α : Type} {l : List α} (hnd : l.Nodup) {a : α} (ha : a ∈ l)
    {p : α → Bool} (hp : ∀ x, p x = true ↔ x = a) : l.countP p = 1 := by
  induction l with
  | nil => cases ha
  | cons c rest ih =>
    rw [List.nodup_cons] at hnd
    rw [List.countP_cons]
    rcases List.mem_cons.mp ha with rfl | ha'
    · have hpc : p a = true := (hp a).mpr rfl
      have hrest : rest.countP p = 0 := by
        apply List.countP_eq_zero.mpr
        intro x hx hpx
        rw [(hp x).mp hpx] at hx
        exact hnd.1 hx
      rw [hrest, hpc]
      simp
    · have hpc : p c = false := by
        rw [Bool.eq_false_iff]
        intro hcontr
        rw [(hp c).mp hcontr] at hnd
        exact hnd.1 ha'
      rw [ih hnd.2 ha', hpc]
      simp

/-! ### The claims -/

/-- C1: for every row of the aggregator's output, `current_quantity` equals
`snapshot_quantity` plus `change_quantity`; and on the end-to-end example
(snapshot (store 1, item 100, quantity 10, T0 = 100) with changes −2 at 101 and
+1 at 102) the output row has change_quantity = −1, current_quantity = 9 and
date_time = 102 = T0 + 2. -/
theorem claim_C1 :
    (∀ (snaps : List LatestInventorySnapshot) (chgs : List ChangeRow)
        (draws : Nat × Nat → Bool × Bool) (r : CurrentInventoryRow),
        r ∈ inventory_current snaps chgs draws →
        ∃ q : Int, r.snapshot_quantity = some q ∧
          r.current_quantity = some (q + r.change_quantity)) ∧
      (inventory_current [⟨1, 100, 10, 100⟩] [⟨1, 100, 101, -2⟩, ⟨1, 100, 102, 1⟩]
          (fun _ => (false, false))).map
        (fun r => (r.change_quantity, r.current_quantity, r.date_time)) =
        [(-1, some 9, some 102)] := by
  constructor
  · intro snaps chgs draws r hr
    obtain ⟨k, hk, hre⟩ := mem_inventory_current.mp hr
    have hne := groupFilter_ne_nil hk
    cases hg : (joinedRows snaps chgs).filter (fun x => keyOf x == k) with
    | nil => exact absurd hg hne
    | cons r0 g =>
      rw [hg] at hre
      rw [hre]
      exact ⟨r0.1.quantity, rfl, rfl⟩
  · decide

/-- Witness for C1: the single output row of the end-to-end example. -/
theorem claim_C1_witness :
    ∃ q : Int, exampleRow1.snapshot_quantity = some q ∧
      exampleRow1.current_quantity = some (q + exampleRow1.change_quantity) :=
  claim_C1.1 [⟨1, 100, 10, 100⟩] [⟨1, 100, 101, -2⟩, ⟨1, 100, 102, 1⟩]
    (fun _ => (false, false)) _ (by decide)

/-- C2: assuming at most one snapshot row per (store_id, item_id), the
aggregator emits exactly one output row carrying each snapshot row's key. -/
theorem claim_C2 (snaps : List LatestInventorySnapshot) (chgs : List ChangeRow)
    (draws : Nat × Nat → Bool × Bool)
    (hkeys : (snaps.map fun a => (a.store_id, a.item_id)).Nodup)
    (s : LatestInventorySnapshot) (hs : s ∈ snaps) :
    (inventory_current snaps chgs draws).countP
      (fun r => r.store_id == s.store_id && r.item_id == s.item_id) = 1 := by
  unfold inventory_current
  rw [(orderByRows_perm _).countP_eq, List.countP_map]
  have hcomp : ((fun r : CurrentInventoryRow =>
      r.store_id == s.store_id && r.item_id == s.item_id) ∘
      fun k => mkRow k ((joinedRows snaps chgs).filter fun x => keyOf x == k) (draws k)) =
      fun k : Nat × Nat => k == (s.store_id, s.item_id) := rfl
  rw [hcomp]
  exact countP_eq_one_of_nodup (nodup_groupKeys (joinedRows snaps chgs))
    (key_mem_groupKeys hs) (fun x => beq_iff_eq)

/-- Witness for C2 at a one-snapshot input with no changes. -/
theorem claim_C2_witness :
    (inventory_current [⟨1, 100, 10, 100⟩] [] (fun _ => (false, false))).countP
      (fun r => r.store_id == 1 && r.item_id == 100) = 1 :=
  claim_C2 [⟨1, 100, 10, 100⟩] [] (fun _ => (false, false)) (by decide)
    ⟨1, 100, 10, 100⟩ (by decide)

/-- C3: a change event whose matching store rows are all named "online" and
whose matching change-type rows are all "bopis" is excluded by the filter and
contributes nothing to the aggregator's output; a change event with matching
dimension rows that does not satisfy both conditions passes the filter. -/
theorem claim_C3 :
    (∀ (changes : List InventoryChangeEvent) (stores : List Store)
        (types : List InventoryChangeType) (x : InventoryChangeEvent),
        (∀ y ∈ stores, y.store_id = x.store_id → y.name = "online") →
        (∀ z ∈ types, z.change_type_id = x.change_type_id → z.change_type = "bopis") →
        inventory_change_df (x :: changes) stores types =
            inventory_change_df changes stores types ∧
          ∀ (snaps : List LatestInventorySnapshot) (draws : Nat × Nat → Bool × Bool),
            inventory_current_python (x :: changes) stores types snaps draws =
              inventory_current_python changes stores types snaps draws) ∧
      ∀ (changes : List InventoryChangeEvent) (stores : List Store)
        (types : List InventoryChangeType) (x : InventoryChangeEvent) (y : Store)
        (z : InventoryChangeType), x ∈ changes → y ∈ stores → z ∈ types →
        y.store_id = x.store_id → z.change_type_id = x.change_type_id →
        ¬(y.name = "online" ∧ z.change_type = "bopis") →
        ({ store_id := x.store_id, item_id := x.item_id, date_time := x.date_time,
           quantity := x.quantity } : ChangeRow) ∈
          inventory_change_df changes stores types := by
  constructor
  · intro changes stores types x hy hz
    have h := @inventory_change_df_cons_excluded changes stores types x hy hz
    refine ⟨h, fun snaps draws => ?_⟩
    unfold inventory_current_python
    rw [h]
  · intro changes stores types x y z hx hyy hzz hy1 hz1 hkeep
    exact mem_inventory_change_df hx hyy hzz hy1 hz1 hkeep

/-- Witness for C3: an online/bopis event is dropped; a plain sale passes. -/
theorem claim_C3_witness :
    inventory_change_df [⟨1, 100, 7, 101, -2⟩] [⟨1, "online"⟩] [⟨7, "bopis"⟩] =
        inventory_change_df [] [⟨1, "online"⟩] [⟨7, "bopis"⟩] ∧
      ({ store_id := 2, item_id := 200, date_time := 50, quantity := 3 } : ChangeRow) ∈
        inventory_change_df [⟨2, 200, 9, 50, 3⟩] [⟨2, "storeA"⟩] [⟨9, "sale"⟩] :=
  ⟨(claim_C3.1 [] [⟨1, "online"⟩] [⟨7, "bopis"⟩] ⟨1, 100, 7, 101, -2⟩
      (by decide) (by decide)).1,
    claim_C3.2 [⟨2, 200, 9, 50, 3⟩] [⟨2, "storeA"⟩] [⟨9, "sale"⟩] ⟨2, 200, 9, 50, 3⟩
      ⟨2, "storeA"⟩ ⟨9, "sale"⟩ (by decide) (by decide) (by decide) (by decide)
      (by decide) (by decide)⟩

/-- C4: a filtered change row joins a snapshot row only when the store and item
match and the snapshot's date_time is at most the change's; a change strictly
earlier than every key-matching snapshot leaves the aggregator output
unchanged. -/
theorem claim_C4 :
    (∀ (snaps : List LatestInventorySnapshot) (chgs : List ChangeRow)
        (a : LatestInventorySnapshot) (b : ChangeRow),
        (a, some b) ∈ joinedRows snaps chgs →
        a.store_id = b.store_id ∧ a.item_id = b.item_id ∧ a.date_time ≤ b.date_time) ∧
      ∀ (snaps : List LatestInventorySnapshot) (chgs : List ChangeRow)
        (draws : Nat × Nat → Bool × Bool) (b : ChangeRow),
        (∀ a ∈ snaps, a.store_id = b.store_id → a.item_id = b.item_id →
          b.date_time < a.date_time) →
        inventory_current snaps (b :: chgs) draws =
          inventory_current snaps chgs draws := by
  constructor
  · intro snaps chgs a b hmem
    obtain ⟨a', ha', hblk⟩ := mem_joinedRows.mp hmem
    obtain ⟨haa, hbc, hmj⟩ := mem_blockOf_some hblk
    rw [← haa] at hmj
    simpa [matchesJoin, and_assoc] using hmj
  · intro snaps chgs draws b h
    have hall : ∀ a ∈ snaps, matchesJoin a b = false :=
      fun a ha => matchesJoin_eq_false (h a ha)
    unfold inventory_current
    rw [joinedRows_cons_of_no_match hall]

/-- Witness for C4: a matching joined pair satisfies the condition, and a
pre-snapshot change drops out. -/
theorem claim_C4_witness :
    ((1 : Nat) = 1 ∧ (100 : Nat) = 100 ∧ (100 : Nat) ≤ 101) ∧
      inventory_current [⟨1, 100, 10, 100⟩] [⟨1, 100, 50, 5⟩] (fun _ => (false, false)) =
        inventory_current [⟨1, 100, 10, 100⟩] [] (fun _ => (false, false)) :=
  ⟨claim_C4.1 [⟨1, 100, 10, 100⟩] [⟨1, 100, 101, -2⟩] ⟨1, 100, 10, 100⟩ ⟨1, 100, 101, -2⟩
      (by decide),
    claim_C4.2 [⟨1, 100, 10, 100⟩] [] (fun _ => (false, false)) ⟨1, 100, 50, 5⟩ (by decide)⟩

/-- C5: `change_quantity` is always present (it is an integer after the
coalesce), and an output row none of whose key-matching snapshot rows has any
change row matching the outer-join condition (same store and item and snapshot
date_time ≤ change date_time) has `change_quantity` coalesced to 0. -/
theorem claim_C5 (snaps : List LatestInventorySnapshot) (chgs : List ChangeRow)
    (draws : Nat × Nat → Bool × Bool) (r : CurrentInventoryRow)
    (hr : r ∈ inventory_current snaps chgs draws)
    (hnone : ∀ a ∈ snaps, a.store_id = r.store_id → a.item_id = r.item_id →
      ∀ b ∈ chgs, ¬(b.store_id = a.store_id ∧ b.item_id = a.item_id ∧
        a.date_time ≤ b.date_time)) :
    r.change_quantity = 0 := by
  obtain ⟨k, hk, hre⟩ := mem_inventory_current.mp hr
  have hfm : ((joinedRows snaps chgs).filter fun x => keyOf x == k).filterMap
      (fun x => x.2.map ChangeRow.quantity) = [] := by
    apply List.filterMap_eq_nil_iff.mpr
    intro x hx
    obtain ⟨hxj, hxk⟩ := List.mem_filter.mp hx
    cases hx2 : x.2 with
    | none => rfl
    | some b =>
      exfalso
      obtain ⟨a', ha', hblk⟩ := mem_joinedRows.mp hxj
      have hxx : (x.1, some b) ∈ blockOf chgs a' := by rw [← hx2]; exact hblk
      obtain ⟨hfst, hbc, hmj⟩ := mem_blockOf_some hxx
      have hmjp : a'.store_id = b.store_id ∧ a'.item_id = b.item_id ∧
          a'.date_time ≤ b.date_time := by
        simpa [matchesJoin, and_assoc] using hmj
      have hkeq : (a'.store_id, a'.item_id) = k := by
        have hxkey : keyOf x = k := by simpa using hxk
        rw [keyOf, hfst] at hxkey
        exact hxkey
      have hk1 : k.1 = a'.store_id := by rw [← hkeq]
      have hk2 : k.2 = a'.item_id := by rw [← hkeq]
      have hsid : a'.store_id = r.store_id := by
        rw [hre, mkRow_store_id, hk1]
      have hiid : a'.item_id = r.item_id := by
        rw [hre, mkRow_item_id, hk2]
      exact hnone a' ha' hsid hiid b hbc ⟨hmjp.1.symm, hmjp.2.1.symm, hmjp.2.2⟩
  rw [hre, mkRow_change_quantity, hfm]
  rfl

/-- Witness for C5: a change sharing the key but dated before the snapshot
matches nothing, so change_quantity is coalesced to 0. -/
theorem claim_C5_witness :
    ({ store_id := 1, item_id := 100, snapshot_quantity := some 10, change_quantity := 0,
       current_quantity := some 10, date_time := some 100,
       inventory_type := "high quantity item", stock_status := "low" } :
        CurrentInventoryRow).change_quantity = 0 :=
  claim_C5 [⟨1, 100, 10, 100⟩] [⟨1, 100, 50, 5⟩] (fun _ => (false, false)) _
    (by decide) (by decide)

/-- C6: with at most one snapshot row per key, an output row's `date_time` is
`GREATEST` of the snapshot's date_time and the max matching change date_time;
with no matching change it is the snapshot's date_time; and it is always at
least the snapshot's date_time. -/
theorem claim_C6 (snaps : List LatestInventorySnapshot) (chgs : List ChangeRow)
    (draws : Nat × Nat → Bool × Bool)
    (hkeys : (snaps.map fun a => (a.store_id, a.item_id)).Nodup)
    (r : CurrentInventoryRow) (hr : r ∈ inventory_current snaps chgs draws)
    (a : LatestInventorySnapshot) (ha : a ∈ snaps)
    (h1 : a.store_id = r.store_id) (h2 : a.item_id = r.item_id) :
    r.date_time = sqlGreatest (some a.date_time)
        (sqlMax ((chgs.filter (matchesJoin a)).map ChangeRow.date_time)) ∧
      (chgs.filter (matchesJoin a) = [] → r.date_time = some a.date_time) ∧
      ∃ d, r.date_time = some d ∧ a.date_time ≤ d := by
  have hre := output_row_eq hkeys hr ha h1 h2
  have hdt : r.date_time = sqlGreatest (some a.date_time)
      (sqlMax ((chgs.filter (matchesJoin a)).map ChangeRow.date_time)) := by
    rw [hre, mkRow_date_time, blockOf_filterMap, blockOf_head?_date_time]
  refine ⟨hdt, ?_, ?_⟩
  · intro hnil
    rw [hdt, hnil]
    rfl
  · rw [hdt]
    exact sqlGreatest_some_ge a.date_time _

/-- Witness for C6 at the end-to-end example input. -/
theorem claim_C6_witness :
    exampleRow1.date_time = sqlGreatest (some 100)
        (sqlMax (([⟨1, 100, 101, -2⟩, ⟨1, 100, 102, 1⟩].filter
          (matchesJoin ⟨1, 100, 10, 100⟩)).map ChangeRow.date_time)) ∧
      ([⟨1, 100, 101, -2⟩, ⟨1, 100, 102, 1⟩].filter (matchesJoin ⟨1, 100, 10, 100⟩) = [] →
        exampleRow1.date_time = some 100) ∧
      ∃ d, exampleRow1.date_time = some d ∧ 100 ≤ d :=
  claim_C6 [⟨1, 100, 10, 100⟩] [⟨1, 100, 101, -2⟩, ⟨1, 100, 102, 1⟩]
    (fun _ => (false, false)) (by decide) exampleRow1 (by decide) ⟨1, 100, 10, 100⟩
    (by decide) (by decide) (by decide)

/-- C7: `stock_status` of every output row follows the nested thresholds on
(inventory_type, current_quantity): low tier <3/≤5, medium tier <10/<20, any
other type <50/<70; on the medium tier, 9 → "low", 19 → "medium",
20 → "high". -/
theorem claim_C7 :
    (∀ (snaps : List LatestInventorySnapshot) (chgs : List ChangeRow)
        (draws : Nat × Nat → Bool × Bool) (r : CurrentInventoryRow),
        r ∈ inventory_current snaps chgs draws →
        r.stock_status = stockStatusOf r.inventory_type r.current_quantity) ∧
      (∀ q : Int,
        stockStatusOf "low quantity item" (some q) =
            (if q < 3 then "low" else if q ≤ 5 then "medium quantity item" else "high") ∧
          stockStatusOf "medium quantity item" (some q) =
            (if q < 10 then "low" else if q < 20 then "medium" else "high") ∧
          ∀ ity : String, ity ≠ "low quantity item" → ity ≠ "medium quantity item" →
            stockStatusOf ity (some q) =
              (if q < 50 then "low" else if q < 70 then "medium" else "high")) ∧
      stockStatusOf "medium quantity item" (some 9) = "low" ∧
      stockStatusOf "medium quantity item" (some 19) = "medium" ∧
      stockStatusOf "medium quantity item" (some 20) = "high" := by
  refine ⟨?_, ?_, by decide, by decide, by decide⟩
  · intro snaps chgs draws r hr
    exact stock_status_of_mem hr
  · intro q
    refine ⟨?_, ?_, ?_⟩
    · simp [stockStatusOf, oltInt, oleInt]
    · simp [stockStatusOf, oltInt, oleInt]
    · intro ity hh1 hh2
      rw [stockStatusOf_other ity (some q) hh1 hh2]
      simp [stockStatusOf, oltInt]

/-- Witness for C7: the end-to-end example row satisfies the status equation. -/
theorem claim_C7_witness :
    exampleRow1.stock_status =
      stockStatusOf exampleRow1.inventory_type exampleRow1.current_quantity :=
  claim_C7.1 [⟨1, 100, 10, 100⟩] [⟨1, 100, 101, -2⟩, ⟨1, 100, 102, 1⟩]
    (fun _ => (false, false)) exampleRow1 (by decide)

/-- C8: `best_supplier` rows are exactly the projections of inner-join pairs on
item_id whose inventory row has stock_status "low"; `top_supplier` names the
first of supplier1/supplier2/supplier3 reaching the maximum score; and on the
spec's example (scores 5, 9, 3) it is "supplier2". -/
theorem claim_C8 :
    (∀ (inv : List CurrentInventoryRow) (sups : List Supplier)
        (row : SupplierRecommendationRow),
        row ∈ best_supplier inv sups ↔
          ∃ a ∈ inv, ∃ b ∈ sups, a.item_id = b.item_id ∧ a.stock_status = "low" ∧
            row = { name := b.name, inventory_type := a.inventory_type,
                    current_quantity := a.current_quantity,
                    top_supplier := topSupplierOf b, date_time := a.date_time }) ∧
      (∀ b : Supplier,
        (b.supplier2 ≤ b.supplier1 → b.supplier3 ≤ b.supplier1 →
            topSupplierOf b = "supplier1") ∧
          (b.supplier1 < b.supplier2 → b.supplier3 ≤ b.supplier2 →
            topSupplierOf b = "supplier2") ∧
          (b.supplier1 < b.supplier3 → b.supplier2 < b.supplier3 →
            topSupplierOf b = "supplier3")) ∧
      best_supplier
          [{ store_id := 1, item_id := 100, snapshot_quantity := some 10,
             change_quantity := -1, current_quantity := some 9, date_time := some 102,
             inventory_type := "medium quantity item", stock_status := "low" }]
          [⟨100, "acme", 5, 9, 3⟩] =
        [{ name := "acme", inventory_type := "medium quantity item",
           current_quantity := some 9, top_supplier := "supplier2",
           date_time := some 102 }] := by
  refine ⟨?_, ?_, by decide⟩
  · intro inv sups row
    constructor
    · intro hrow
      obtain ⟨ab, habf, hproj⟩ := List.mem_map.mp hrow
      obtain ⟨habj, hlow⟩ := List.mem_filter.mp habf
      obtain ⟨a, ha, hab2⟩ := List.mem_flatMap.mp habj
      obtain ⟨b, hbf, habeq⟩ := List.mem_map.mp hab2
      obtain ⟨hb, hitem⟩ := List.mem_filter.mp hbf
      refine ⟨a, ha, b, hb, by simpa using hitem, ?_, ?_⟩
      · rw [← habeq] at hlow
        simpa using hlow
      · rw [← hproj, ← habeq]
    · rintro ⟨a, ha, b, hb, hitem, hlow, rfl⟩
      apply List.mem_map.mpr
      refine ⟨(a, b), ?_, rfl⟩
      apply List.mem_filter.mpr
      refine ⟨?_, by simpa using hlow⟩
      apply List.mem_flatMap.mpr
      exact ⟨a, ha, List.mem_map.mpr ⟨b, List.mem_filter.mpr ⟨hb, by simp [hitem]⟩, rfl⟩⟩
  · intro b
    refine ⟨?_, ?_, ?_⟩
    · intro h21 h31
      have hg : max b.supplier1 (max b.supplier2 b.supplier3) = b.supplier1 :=
        max_eq_left (max_le h21 h31)
      simp only [topSupplierOf, hg, beq_self_eq_true, if_pos]
    · intro h12 h32
      have hg : max b.supplier1 (max b.supplier2 b.supplier3) = b.supplier2 := by
        rw [max_eq_left h32, max_eq_right (le_of_lt h12)]
      have hne1 : (b.supplier2 == b.supplier1) = false :=
        beq_eq_false_iff_ne.mpr (ne_of_gt h12)
      simp only [topSupplierOf, hg, hne1, beq_self_eq_true, if_pos, Bool.false_eq_true,
        if_false]
    · intro h13 h23
      have hg : max b.supplier1 (max b.supplier2 b.supplier3) = b.supplier3 := by
        rw [max_eq_right (le_of_lt h23), max_eq_right (le_of_lt h13)]
      have hne1 : (b.supplier3 == b.supplier1) = false :=
        beq_eq_false_iff_ne.mpr (ne_of_gt h13)
      have hne2 : (b.supplier3 == b.supplier2) = false :=
        beq_eq_false_iff_ne.mpr (ne_of_gt h23)
      simp only [topSupplierOf, hg, hne1, hne2, Bool.false_eq_true, if_false]

/-- Witness for C8: the spec's score triple (5, 9, 3) selects "supplier2". -/
theorem claim_C8_witness : topSupplierOf ⟨100, "acme", 5, 9, 3⟩ = "supplier2" :=
  (claim_C8.2.1 ⟨100, "acme", 5, 9, 3⟩).2.1 (by decide) (by decide)

/-- C9: every output row's `inventory_type` is a function of its draw outcomes
alone and its `stock_status` a function of the draw outcomes and
`current_quantity` alone; two output rows (from any runs) with a common draw
outcome and equal `current_quantity` carry identical labels. -/
theorem claim_C9 :
    (∀ (snaps : List LatestInventorySnapshot) (chgs : List ChangeRow)
        (draws : Nat × Nat → Bool × Bool) (r : CurrentInventoryRow),
        r ∈ inventory_current snaps chgs draws →
        ∃ d : Bool × Bool, r.inventory_type = inventoryTypeOf d ∧
          r.stock_status = stockStatusOf (inventoryTypeOf d) r.current_quantity) ∧
      ∀ (snaps snaps' : List LatestInventorySnapshot) (chgs chgs' : List ChangeRow)
        (draws draws' : Nat × Nat → Bool × Bool) (r r' : CurrentInventoryRow),
        r ∈ inventory_current snaps chgs draws →
        r' ∈ inventory_current snaps' chgs' draws' →
        (∃ d : Bool × Bool, r.inventory_type = inventoryTypeOf d ∧
          r'.inventory_type = inventoryTypeOf d) →
        r.current_quantity = r'.current_quantity →
        r.inventory_type = r'.inventory_type ∧ r.stock_status = r'.stock_status := by
  constructor
  · intro snaps chgs draws r hr
    obtain ⟨k, hk, hre⟩ := mem_inventory_current.mp hr
    refine ⟨draws k, ?_, ?_⟩
    · rw [hre]
      rfl
    · rw [hre]
      rfl
  · intro snaps snaps' chgs chgs' draws draws' r r' hr hr' hd hcq
    obtain ⟨d, e1, e2⟩ := hd
    have hity : r.inventory_type = r'.inventory_type := e1.trans e2.symm
    refine ⟨hity, ?_⟩
    rw [stock_status_of_mem hr, stock_status_of_mem hr', hity, hcq]

/-- Witness for C9: two rows from different runs with equal draws and equal
current_quantity get the same labels. -/
theorem claim_C9_witness :
    ({ store_id := 1, item_id := 100, snapshot_quantity := some 10, change_quantity := 0,
       current_quantity := some 10, date_time := some 100,
       inventory_type := "high quantity item", stock_status := "low" } :
        CurrentInventoryRow).inventory_type =
      ({ store_id := 2, item_id := 300, snapshot_quantity := some 7, change_quantity := 3,
         current_quantity := some 10, date_time := some 60,
         inventory_type := "high quantity item", stock_status := "low" } :
          CurrentInventoryRow).inventory_type ∧
      ({ store_id := 1, item_id := 100, snapshot_quantity := some 10, change_quantity := 0,
         current_quantity := some 10, date_time := some 100,
         inventory_type := "high quantity item", stock_status := "low" } :
          CurrentInventoryRow).stock_status =
        ({ store_id := 2, item_id := 300, snapshot_quantity := some 7, change_quantity := 3,
           current_quantity := some 10, date_time := some 60,
           inventory_type := "high quantity item", stock_status := "low" } :
            CurrentInventoryRow).stock_status :=
  claim_C9.2 [⟨1, 100, 10, 100⟩] [⟨2, 300, 7, 50⟩] [] [⟨2, 300, 60, 3⟩]
    (fun _ => (false, false)) (fun _ => (false, false)) _ _ (by decide) (by decide)
    ⟨(false, false), by decide, by decide⟩ (by decide)

/-- C10: every output row's `stock_status` is assigned one of the four literal
labels, and any `inventory_type` other than the low and medium labels
(including "high quantity item") falls through to the high-tier thresholds. -/
theorem claim_C10 (snaps : List LatestInventorySnapshot) (chgs : List ChangeRow)
    (draws : Nat × Nat → Bool × Bool) (r : CurrentInventoryRow)
    (hr : r ∈ inventory_current snaps chgs draws) :
    (r.stock_status = "low" ∨ r.stock_status = "medium quantity item" ∨
        r.stock_status = "medium" ∨ r.stock_status = "high") ∧
      (r.inventory_type ≠ "low quantity item" → r.inventory_type ≠ "medium quantity item" →
        r.stock_status = stockStatusOf "high quantity item" r.current_quantity) := by
  have hs := stock_status_of_mem hr
  constructor
  · rw [hs]
    exact stockStatusOf_cases r.inventory_type r.current_quantity
  · intro hh1 hh2
    rw [hs, stockStatusOf_other r.inventory_type r.current_quantity hh1 hh2]

/-- Witness for C10 at the end-to-end example row. -/
theorem claim_C10_witness :
    (exampleRow1.stock_status = "low" ∨ exampleRow1.stock_status = "medium quantity item" ∨
        exampleRow1.stock_status = "medium" ∨ exampleRow1.stock_status = "high") ∧
      (exampleRow1.inventory_type ≠ "low quantity item" →
        exampleRow1.inventory_type ≠ "medium quantity item" →
        exampleRow1.stock_status =
          stockStatusOf "high quantity item" exampleRow1.current_quantity) :=
  claim_C10 [⟨1, 100, 10, 100⟩] [⟨1, 100, 101, -2⟩, ⟨1, 100, 102, 1⟩]
    (fun _ => (false, false)) exampleRow1 (by decide)
